import Mathlib

/-!
Shallow embedding of the goposm import pipeline orchestration layer
(goposm.go): data model, read-phase cache writers, relation assembler,
way assembler, node assembler, insert buffer, and the temporal trace of
the coord-store mode switches in main.
-/

set_option autoImplicit false

namespace Goposm

/-- OSM tag map, modelled as an association list. -/
abbrev Tags := List (String × String)

/-- Geometry blobs (WKB) are opaque byte strings. -/
abbrev Geom := List Nat

/-- Rows emitted into the insert buffer are opaque column lists. -/
abbrev Row := List String

/-- element.Node: id, position, tags, optional geometry (OSMElem.Geom). -/
structure Node where
  id : Int
  x : Int
  y : Int
  tags : Tags
  geom : Option Geom
deriving DecidableEq

/-- element.Way: id, node-id refs, tags, resolved nodes, optional geometry. -/
structure Way where
  id : Int
  refs : List Int
  tags : Tags
  nodes : List Node
  geom : Option Geom
deriving DecidableEq

/-- The shared OSMElem sub-record (id, tags, geom). -/
structure Elem where
  id : Int
  tags : Tags
  geom : Option Geom
deriving DecidableEq

def Way.elem (w : Way) : Elem := ⟨w.id, w.tags, w.geom⟩

def Node.elem (n : Node) : Elem := ⟨n.id, n.tags, n.geom⟩

/-- Relation member types. -/
inductive MemberType where
  | node
  | way
  | relation
deriving DecidableEq

/-- element.Member: referenced id, member type, role. -/
structure Member where
  id : Int
  mtype : MemberType
  role : String
deriving DecidableEq

/-- element.Relation: id, tags, members, optional geometry. -/
structure Relation where
  id : Int
  tags : Tags
  members : List Member
  geom : Option Geom
deriving DecidableEq

def Relation.elem (r : Relation) : Elem := ⟨r.id, r.tags, r.geom⟩

/-- Modelled from the spec: the element package (not under src) defines a
way as closed iff its node-id sequence has length at least 4 and its
first id equals its last id. -/
def Way.IsClosed (w : Way) : Bool :=
  decide (4 ≤ w.refs.length) && decide (w.refs.head? = w.refs.getLast?)

/-- A geometry-builder error: message plus the optional ErrorLevel
capability (`some l` iff the error value implements Level, returning l). -/
structure GeomError where
  msg : String
  level : Option Int
deriving DecidableEq

/-- The error-classification used at every geometry-error site in
goposm.go: the error is silently dropped iff it implements ErrorLevel
and Level() <= 0. -/
def silentLevel (e : GeomError) : Bool :=
  match e.level with
  | some l => decide (l ≤ 0)
  | none => false

/-- The common error-handling pattern: `continue` either way, appending
the error to the log unless it is silent. -/
def geomErrLog (e : GeomError) (logged : List GeomError) : List GeomError :=
  if silentLevel e then logged else logged ++ [e]

/-- A tag-match result: target table plus the row builder (match.Row). -/
structure Match where
  table : String
  rowOf : Elem → Row

/-! ## Way Assembler (parallel loop body in main, goposm.go lines 318-376) -/

/-- Environment of one way-assembler worker: the inserted-ways store
contents, the coord cache (FillWay), projection, the two matchers, the
two geometry builders, and the --diff flag. -/
structure WayEnv where
  inserted : Int → Bool
  fillWay : Way → Except Unit (List Node)
  projNode : Node → Node
  lineMatch : Elem → List Match
  polyMatch : Elem → List Match
  lineWKB : List Node → Except GeomError Geom
  polyWKB : List Node → Except GeomError Geom
  diff : Bool

/-- Observable effect of processing one way: rows inserted by the
line-string branch, rows inserted by the polygon branch, whether
AddFromWay ran on the diff coord store, and the logged errors. -/
structure WayOut where
  lineRows : List (String × Row)
  polyRows : List (String × Row)
  diffAdd : Bool
  logged : List GeomError
deriving DecidableEq

/-- The polygon branch and the diff step (goposm.go lines 353-375): on a
closed way with polygon matches, build the polygon on a fresh copy of
the record; a geometry error skips the rest of the loop body including
AddFromWay. -/
def wayPolyStage (env : WayEnv) (w : Way) (lineRows : List (String × Row))
    (logged : List GeomError) : WayOut :=
  if w.IsClosed then
    match env.polyMatch w.elem with
    | [] => ⟨lineRows, [], env.diff, logged⟩
    | pm =>
      match env.polyWKB w.nodes with
      | .error e => ⟨lineRows, [], false, geomErrLog e logged⟩
      | .ok g =>
        let wc : Way := { w with geom := some g }
        ⟨lineRows, pm.map (fun m => (m.table, m.rowOf wc.elem)), env.diff, logged⟩
  else ⟨lineRows, [], env.diff, logged⟩

/-- One iteration of the way-assembler loop (goposm.go lines 318-376):
skip inserted ways, fill coords (any error skips), project, run the
line-string branch on a copy, then the polygon branch on another copy,
then AddFromWay when --diff is set. -/
def processWay (env : WayEnv) (w : Way) : WayOut :=
  if env.inserted w.id then ⟨[], [], false, []⟩
  else
    match env.fillWay w with
    | .error _ => ⟨[], [], false, []⟩
    | .ok ns =>
      let wp : Way := { w with nodes := ns.map env.projNode }
      match env.lineMatch wp.elem with
      | [] => wayPolyStage env wp [] []
      | lm =>
        match env.lineWKB wp.nodes with
        | .error e => ⟨[], [], false, geomErrLog e []⟩
        | .ok g =>
          let wc : Way := { wp with geom := some g }
          wayPolyStage env wp (lm.map (fun m => (m.table, m.rowOf wc.elem))) []

/-! ## Relation Assembler (sequential loop in main, goposm.go lines 263-306) -/

/-- Result of cache.Ways.FillMembers: the list of way payloads filled
into the members (none for non-way members and for ways missing on
NotFound). NotFound falls through in goposm.go; any other error skips
the relation. -/
inductive FillMembersRes where
  | notFound (ws : List (Option Way))
  | err
  | ok (ws : List (Option Way))
deriving DecidableEq

/-- Result of cache.Coords.FillWay inside the relation loop: NotFound
falls through (partial nodes), any other error skips the member. -/
inductive FillWayRes where
  | notFound (ns : List Node)
  | err
  | ok (ns : List Node)
deriving DecidableEq

/-- Observable fate of one relation member in the member loop
(goposm.go lines 272-284). -/
inductive MemberOut where
  | wayNone
  | skippedErr (w : Way)
  | projected (w : Way)
deriving DecidableEq

/-- Environment of the relation assembler: the ways cache (FillMembers),
the coord cache (FillWay), projection, geometry builder, polygon
matcher. -/
structure RelEnv where
  fillMembers : Relation → FillMembersRes
  fillWayRel : Way → FillWayRes
  projNode : Node → Node
  buildRelation : Relation → List MemberOut → Except GeomError Geom
  polyMatch : Elem → List Match

/-- The member loop body (goposm.go lines 272-284): nil ways are
skipped; a non-NotFound FillWay error skips the member via continue;
NotFound falls through, so the member is projected like a success. -/
def processMember (env : RelEnv) (ow : Option Way) : MemberOut :=
  match ow with
  | none => .wayNone
  | some w =>
    match env.fillWayRel w with
    | .err => .skippedErr w
    | .notFound ns => .projected { w with nodes := ns.map env.projNode }
    | .ok ns => .projected { w with nodes := ns.map env.projNode }

/-- Accumulated state of the relation pass: emitted rows, the
inserted-ways store contents, logged geometry errors. -/
structure RelState where
  rows : List (String × Row)
  inserted : List Int
  logged : List GeomError
deriving DecidableEq

/-- The ids PutMembers records: the ids of all way-typed members. -/
def wayMemberIds (ms : List Member) : List Int :=
  (ms.filter (fun m => m.mtype = MemberType.way)).map Member.id

/-- The tail of the relation loop body (goposm.go lines 286-305):
BuildRelation, error classification, polygon matching, row emission and
PutMembers on a non-empty match list. -/
def relBuildStage (env : RelEnv) (st : RelState) (r : Relation)
    (outs : List MemberOut) : RelState :=
  match env.buildRelation r outs with
  | .error e => { st with logged := geomErrLog e st.logged }
  | .ok g =>
    let re : Elem := ⟨r.id, r.tags, some g⟩
    match env.polyMatch re with
    | [] => st
    | pm =>
      { st with
        rows := st.rows ++ pm.map (fun m => (m.table, m.rowOf re)),
        inserted := st.inserted ++ wayMemberIds r.members }

/-- One iteration of the relation loop (goposm.go lines 263-306):
FillMembers (NotFound tolerated, other errors skip the relation), the
member loop, then build/match/emit/mark. -/
def relStep (env : RelEnv) (st : RelState) (r : Relation) : RelState :=
  match env.fillMembers r with
  | .err => st
  | .notFound ws | .ok ws =>
    relBuildStage env st r (ws.map (processMember env))

/-- The whole relation pass over the iterated relations. -/
def runRelations (env : RelEnv) (rels : List Relation) : RelState :=
  rels.foldl (relStep env) ⟨[], [], []⟩

/-- Whether one relation reaches PutMembers: FillMembers did not hard
error, BuildRelation succeeded, and the polygon matcher returned a
non-empty list. -/
def relInsertsMembers (env : RelEnv) (r : Relation) : Bool :=
  match env.fillMembers r with
  | .err => false
  | .notFound ws | .ok ws =>
    match env.buildRelation r (ws.map (processMember env)) with
    | .error _ => false
    | .ok g => !(env.polyMatch ⟨r.id, r.tags, some g⟩).isEmpty

/-- The set of way ids the claim says end up inserted: way-typed members
of some relation whose tags match at least one polygon rule (stated from
the spec's words, for comparison with the code's behaviour). -/
def claimInsertedIds (env : RelEnv) (rels : List Relation) (id : Int) : Bool :=
  rels.any (fun r =>
    !(env.polyMatch r.elem).isEmpty && (wayMemberIds r.members).contains id)

/-! ## Node Assembler (sequential loop in main, goposm.go lines 388-409) -/

/-- Environment of the node pass: point matcher, projection, point
geometry builder. -/
structure NodeEnv where
  pointMatch : Elem → List Match
  projNode : Node → Node
  pointWKB : Node → Except GeomError Geom

/-- Observable effect of processing one node. -/
structure NodeOut where
  rows : List (String × Row)
  logged : List GeomError
deriving DecidableEq

/-- One iteration of the node loop (goposm.go lines 388-409): match on
the raw element; on a match project, build the point geometry, handle
errors with the shared pattern, emit one row per match. -/
def processNode (env : NodeEnv) (n : Node) : NodeOut :=
  match env.pointMatch n.elem with
  | [] => ⟨[], []⟩
  | pm =>
    let np := env.projNode n
    match env.pointWKB np with
    | .error e => ⟨[], geomErrLog e []⟩
    | .ok g =>
      let n2 : Node := { np with geom := some g }
      ⟨pm.map (fun m => (m.table, m.rowOf n2.elem)), []⟩

/-! ## Read phase: init flags and cache writers (goposm.go lines 30-47, 53-148) -/

/-- init (goposm.go lines 30-39): a skip flag is set iff the
environment variable is nonempty. -/
def envSkip (s : String) : Bool := s != ""

/-- Environment of the read-phase cache writers: the three skip flags
and the three per-kind tag filters. -/
structure ReadEnv where
  skipCoords : Bool
  skipNodes : Bool
  skipWays : Bool
  wayFilter : Tags → Tags
  nodeFilter : Tags → Tags
  relFilter : Tags → Tags

/-- The cache contents after the read phase, with Put-call counters. -/
structure CacheStore where
  coords : List Node
  nodes : List Node
  ways : List Way
  rels : List Relation
  coordPuts : Nat
  nodePuts : Nat
  wayPuts : Nat
  relPuts : Nat

/-- Coord writer body (goposm.go lines 111-123): skip flag drains the
batch without a PutCoords call. -/
def coordWriterStep (env : ReadEnv) (st : CacheStore) (batch : List Node) :
    CacheStore :=
  if env.skipCoords then st
  else { st with coords := st.coords ++ batch, coordPuts := st.coordPuts + 1 }

/-- Way writer body (goposm.go lines 80-96): skip flag drains without a
PutWays call; otherwise tag-filter in place, then put. -/
def wayWriterStep (env : ReadEnv) (st : CacheStore) (batch : List Way) :
    CacheStore :=
  if env.skipWays then st
  else
    { st with
      ways := st.ways ++ batch.map (fun w => { w with tags := env.wayFilter w.tags }),
      wayPuts := st.wayPuts + 1 }

/-- Node writer body (goposm.go lines 124-140): skip flag drains without
a PutNodes call; otherwise tag-filter in place, then put. -/
def nodeWriterStep (env : ReadEnv) (st : CacheStore) (batch : List Node) :
    CacheStore :=
  if env.skipNodes then st
  else
    { st with
      nodes := st.nodes ++ batch.map (fun n => { n with tags := env.nodeFilter n.tags }),
      nodePuts := st.nodePuts + 1 }

/-- Relation writer body (goposm.go lines 97-110): no skip flag exists;
tag-filter, then put. -/
def relWriterStep (env : ReadEnv) (st : CacheStore) (batch : List Relation) :
    CacheStore :=
  { st with
    rels := st.rels ++ batch.map (fun r => { r with tags := env.relFilter r.tags }),
    relPuts := st.relPuts + 1 }

/-- The parse function's effect on the cache (goposm.go lines 53-148):
every batch of each kind flows through its writer pool. -/
def runRead (env : ReadEnv) (coordBatches nodeBatches : List (List Node))
    (wayBatches : List (List Way)) (relBatches : List (List Relation))
    (st : CacheStore) : CacheStore :=
  let st1 := coordBatches.foldl (coordWriterStep env) st
  let st2 := nodeBatches.foldl (nodeWriterStep env) st1
  let st3 := wayBatches.foldl (wayWriterStep env) st2
  relBatches.foldl (relWriterStep env) st3

/-! ## Insert buffer batch size (goposm.go lines 41-47) -/

/-- Largest int32 value, the clamp bound of strconv.ParseInt with
bitSize 32. -/
def int32Max : Int := 2 ^ 31 - 1

/-- Smallest int32 value. -/
def int32Min : Int := -(2 ^ 31)

/-- Decimal digit run to a number; none on an empty run or a non-digit. -/
def decDigitsAux : List Char → Nat → Option Nat
  | [], acc => some acc
  | c :: cs, acc =>
    if c.isDigit then decDigitsAux cs (acc * 10 + (c.toNat - 48)) else none

/-- Decimal digit run to a number, rejecting the empty string. -/
def decDigits : List Char → Option Nat
  | [] => none
  | cs => decDigitsAux cs 0

/-- strconv.ParseInt(s, 10, 32): optional sign, decimal digits; on a
syntax error the value 0 is returned, on a range error the value is
clamped to the int32 bounds; the Bool is the success flag (the Go error
being nil). -/
def goParseInt32 (s : String) : Int × Bool :=
  let signSplit : Bool × List Char :=
    match s.toList with
    | [] => (false, [])
    | c :: cs =>
      if c = '-' then (true, cs)
      else if c = '+' then (false, cs)
      else (false, c :: cs)
  match decDigits signSplit.2 with
  | none => (0, false)
  | some n =>
    let v : Int := if signSplit.1 then -(n : Int) else (n : Int)
    if v > int32Max then (int32Max, false)
    else if v < int32Min then (int32Min, false)
    else (v, true)

/-- init (goposm.go lines 41-46): the batch size is the ParseInt result
with the error discarded, replaced by 4096 whenever that result is 0. -/
def dbImportBatchSize (s : String) : Int :=
  let v := (goParseInt32 s).1
  if v = 0 then 4096 else v

/-- The batch size the claim describes: the parsed value whenever the
variable parses as an integer, 4096 otherwise (stated from the spec's
words, for comparison with the code's behaviour). -/
def claimBatchSize (s : String) : Int :=
  if (goParseInt32 s).2 then (goParseInt32 s).1 else 4096

/-- Modelled from the spec: writer.InsertBuffer (not under src) groups
rows by table and flushes a table's pending rows to its output channel
when the queue reaches the configured batch size. Pending queues are an
association list from table name to rows; out collects flushed batches. -/
structure BufferState where
  pending : List (String × List Row)
  out : List (String × List Row)
deriving DecidableEq

/-- Pending queue of one table. -/
def pendingOf (p : List (String × List Row)) (tbl : String) : List Row :=
  match p.lookup tbl with
  | some q => q
  | none => []

/-- Replace one table's pending queue. -/
def setPending (p : List (String × List Row)) (tbl : String) (q : List Row) :
    List (String × List Row) :=
  (tbl, q) :: p.filter (fun e => e.1 != tbl)

/-- Modelled from the spec: one InsertBuffer.Insert call appends the row
to the table's queue and flushes the queue as a batch once it reaches
the batch size. -/
def ibInsert (batchSize : Int) (st : BufferState) (tbl : String) (row : Row) :
    BufferState :=
  let q := pendingOf st.pending tbl ++ [row]
  if batchSize ≤ (q.length : Int) then
    ⟨setPending st.pending tbl [], st.out ++ [(tbl, q)]⟩
  else
    ⟨setPending st.pending tbl q, st.out⟩

/-! ## Temporal trace of main (goposm.go lines 221-227 and 229-413)

The phases of main are sequential: parse returns only after every cache
writer finished (WaitGroup), so all coord Puts fall inside the parse
call, and the write phase starts after flush. The trace records the
coord-store operations and the diff-cache lifecycle in program order;
the concurrent way workers are serialized arbitrarily, which is sound
because the checked properties are order-independent within that
segment. -/

/-- Events of the main trace. -/
inductive Ev where
  | setLinear (b : Bool)
  | putCoords
  | flushCoords
  | fillCoords
  | diffRemove
  | diffOpen
  | diffClose
  | wayStep
deriving DecidableEq

/-- The shape of one run of main: flags and workload sizes. -/
structure MainCfg where
  readFile : String
  write : Bool
  diff : Bool
  skipCoords : Bool
  coordBatches : Nat
  relFills : Nat
  wayCount : Nat

/-- The read phase trace (goposm.go lines 221-227): SetLinearImport(true),
the parse call (coord batches written unless skipped), then
SetLinearImport(false) and Flush. -/
def readTrace (cfg : MainCfg) : List Ev :=
  if cfg.readFile = "" then []
  else
    [Ev.setLinear true]
      ++ (if cfg.skipCoords then [] else List.replicate cfg.coordBatches .putCoords)
      ++ [Ev.setLinear false, Ev.flushCoords]

/-- The write phase trace (goposm.go lines 229-413): the diff cache is
removed and reopened unconditionally, the relation pass fills member
coords, each way iteration fills its coords, and the diff coord store
is closed right after the way pass. -/
def writeTrace (cfg : MainCfg) : List Ev :=
  if cfg.write then
    [Ev.diffRemove, Ev.diffOpen]
      ++ List.replicate cfg.relFills .fillCoords
      ++ (List.replicate cfg.wayCount [Ev.wayStep, Ev.fillCoords]).flatten
      ++ [Ev.diffClose]
  else []

/-- The full trace of one run of main. -/
def mainTrace (cfg : MainCfg) : List Ev :=
  readTrace cfg ++ writeTrace cfg

/-- Checker state for the coord-store mode discipline. -/
structure CoordMode where
  linear : Bool
  flushed : Bool
  ok : Bool
deriving DecidableEq

/-- One checker step: a batch write is legal only in linear-import mode;
a random-access fill is legal only with linear mode off and after a
flush. -/
def coordStep (s : CoordMode) (e : Ev) : CoordMode :=
  match e with
  | .setLinear b => { s with linear := b }
  | .flushCoords => { s with flushed := true }
  | .putCoords => { s with ok := s.ok && s.linear }
  | .fillCoords => { s with ok := s.ok && !s.linear && s.flushed }
  | _ => s

/-- The trace respects the coord-store mode discipline. -/
def coordAccessOk (tr : List Ev) : Bool :=
  (tr.foldl coordStep ⟨false, false, true⟩).ok

/-- Events of the diff-cache lifecycle and the way pass, to state their
relative order. -/
def diffOrWay (e : Ev) : Bool :=
  match e with
  | .diffRemove => true
  | .diffOpen => true
  | .diffClose => true
  | .wayStep => true
  | _ => false

/-! ## Derived way-assembler observations (for the diff-store claim) -/

/-- Whether the coord fill succeeds for a way in the way pass. -/
def wayFillOk (env : WayEnv) (w : Way) : Bool :=
  match env.fillWay w with
  | .ok _ => true
  | .error _ => false

/-- Whether a geometry-builder error makes the way-loop body continue
before reaching AddFromWay: a line-string build error when the
line-string matcher fired, or, failing that, a polygon build error when
the way is closed and the polygon matcher fired. -/
def wayGeomSkip (env : WayEnv) (w : Way) : Bool :=
  match env.fillWay w with
  | .error _ => false
  | .ok ns =>
    let wp : Way := { w with nodes := ns.map env.projNode }
    let lineSkip : Bool :=
      match env.lineMatch wp.elem with
      | [] => false
      | _ =>
        match env.lineWKB wp.nodes with
        | .error _ => true
        | .ok _ => false
    if lineSkip then true
    else if wp.IsClosed then
      match env.polyMatch wp.elem with
      | [] => false
      | _ =>
        match env.polyWKB wp.nodes with
        | .error _ => true
        | .ok _ => false
    else false

/-! ## Concrete fixtures for counterexamples and witnesses -/

/-- A generic tag-match result with an uninformative row builder. -/
def mGeneric : Match := ⟨"t", fun _ => []⟩

/-- A single concrete coordinate node. -/
def node1 : Node := ⟨1, 10, 50, [], none⟩

/-- A triangle ring: four node ids over three distinct nodes, first
equal to last. -/
def wayTri : Way := ⟨9, [1, 2, 3, 1], [("building", "yes")], [], none⟩

/-- A lone way referenced as a relation member. -/
def wayM : Way := ⟨5, [1], [], [], none⟩

/-- A relation with one way-typed member (id 5) and polygon-like tags. -/
def relCE : Relation :=
  ⟨1, [("type", "multipolygon")], [⟨5, MemberType.way, "outer"⟩], none⟩

/-- A relation environment whose geometry build always fails with a
silent (level 0) error, while the polygon matcher always matches. -/
def relEnvCE : RelEnv where
  fillMembers := fun _ => .ok []
  fillWayRel := fun _ => .err
  projNode := fun n => n
  buildRelation := fun _ _ => .error ⟨"broken ring", some 0⟩
  polyMatch := fun _ => [mGeneric]

/-- The same environment with a succeeding geometry build. -/
def relEnvW : RelEnv :=
  { relEnvCE with buildRelation := fun _ _ => .ok [0] }

/-- The same environment where member coord fills end in NotFound with a
partially filled node list. -/
def relEnvNF : RelEnv :=
  { relEnvCE with fillWayRel := fun _ => .notFound [node1] }

/-- An environment where the fill of way 5 ends in a non-NotFound error
while every other way ends in NotFound. -/
def relEnvMix : RelEnv :=
  { relEnvCE with
    fillWayRel := fun w => if w.id == 5 then .err else .notFound [node1] }

/-- A way environment where everything succeeds: coords resolve, both
matchers fire, both geometry builds succeed, diff mode on. -/
def wayEnvOk : WayEnv where
  inserted := fun _ => false
  fillWay := fun _ => .ok [node1]
  projNode := fun n => n
  lineMatch := fun _ => [mGeneric]
  polyMatch := fun _ => [mGeneric]
  lineWKB := fun _ => .ok [1]
  polyWKB := fun _ => .ok [2]
  diff := true

/-- The same way environment with a failing (logged, level 1)
line-string build. -/
def wayEnvLineErr : WayEnv :=
  { wayEnvOk with lineWKB := fun _ => .error ⟨"geos line", some 1⟩ }

/-- The same way environment with no line-string match and a failing
(no level) polygon build. -/
def wayEnvPolyErr : WayEnv :=
  { wayEnvOk with
    lineMatch := fun _ => [],
    polyWKB := fun _ => .error ⟨"geos polygon", none⟩ }

/-- A way environment whose inserted-ways store contains way id 9. -/
def wayEnvInserted : WayEnv :=
  { wayEnvOk with inserted := fun i => i == 9 }

/-- A node environment with a failing (silent, level -1) point build. -/
def nodeEnvErr : NodeEnv where
  pointMatch := fun _ => [mGeneric]
  projNode := fun n => n
  pointWKB := fun _ => .error ⟨"geos point", some (-1)⟩

/-- A tagged node. -/
def nodeCafe : Node := ⟨7, 10, 50, [("amenity", "cafe")], none⟩

/-- An empty cache. -/
def emptyCache : CacheStore := ⟨[], [], [], [], 0, 0, 0, 0⟩

/-- A read environment with all three skip flags set and identity
filters. -/
def readEnvSkip : ReadEnv :=
  ⟨true, true, true, fun t => t, fun t => t, fun t => t⟩

/-- A run shape with both phases enabled. -/
def cfgBoth : MainCfg := ⟨"planet.pbf", true, false, false, 2, 1, 2⟩

/-! ## Helper lemmas -/

theorem wayPolyStage_not_closed (env : WayEnv) (w : Way)
    (lr : List (String × Row)) (lg : List GeomError)
    (h : Way.IsClosed w = false) :
    wayPolyStage env w lr lg = ⟨lr, [], env.diff, lg⟩ := by
  simp [wayPolyStage, h]

theorem wayPolyStage_polyRows_closed (env : WayEnv) (w : Way)
    (lr : List (String × Row)) (lg : List GeomError)
    (h : (wayPolyStage env w lr lg).polyRows ≠ []) :
    Way.IsClosed w = true := by
  cases hc : Way.IsClosed w with
  | true => rfl
  | false => rw [wayPolyStage_not_closed env w lr lg hc] at h; simp at h

theorem processWay_polyRows_closed (env : WayEnv) (w : Way)
    (h : (processWay env w).polyRows ≠ []) : Way.IsClosed w = true := by
  unfold processWay at h
  cases hi : env.inserted w.id with
  | true => simp [hi] at h
  | false =>
    simp only [hi, Bool.false_eq_true, if_false] at h
    cases hf : env.fillWay w with
    | error u => simp [hf] at h
    | ok ns =>
      simp only [hf] at h
      have hrefs :
          Way.IsClosed { w with nodes := ns.map env.projNode } = Way.IsClosed w := rfl
      cases hlm : env.lineMatch (Way.elem { w with nodes := ns.map env.projNode }) with
      | nil =>
        simp only [hlm] at h
        rw [← hrefs]
        exact wayPolyStage_polyRows_closed _ _ _ _ h
      | cons m ms =>
        simp only [hlm] at h
        cases hlw : env.lineWKB (ns.map env.projNode) with
        | error e => simp [hlw] at h
        | ok g =>
          simp only [hlw] at h
          rw [← hrefs]
          exact wayPolyStage_polyRows_closed _ _ _ _ h

theorem processWay_not_closed (env : WayEnv) (w : Way)
    (h : Way.IsClosed w = false) : (processWay env w).polyRows = [] := by
  cases hp : (processWay env w).polyRows with
  | nil => rfl
  | cons x xs =>
    have : Way.IsClosed w = true := by
      apply processWay_polyRows_closed
      rw [hp]; simp
    rw [h] at this; cases this

theorem foldl_preserve {α β γ : Type} (f : β → α → β) (g : β → γ)
    (hf : ∀ st b, g (f st b) = g st) :
    ∀ (l : List α) (st : β), g (List.foldl f st l) = g st := by
  intro l
  induction l with
  | nil => intro st; rfl
  | cons b bs ih => intro st; rw [List.foldl_cons, ih, hf]

/-! ## Claim C5 -/

/-- Claim C5 counterexample: the triangle ring [1, 2, 3, 1] has exactly
3 distinct nodes and first id equal to last id, yet IsClosed is true
and the way assembler does emit a polygon row for it, contrary to the
claim that such a way is treated as not closed. -/
theorem c5_counterexample :
    wayTri.refs.dedup.length = 3
    ∧ wayTri.refs.head? = wayTri.refs.getLast?
    ∧ Way.IsClosed wayTri = true
    ∧ (processWay wayEnvOk wayTri).polyRows ≠ [] := by
  refine ⟨by decide, by decide, by decide, ?_⟩
  decide

/-- Claim C5 (amended): the way assembler emits polygon rows for a
standalone way only when the way is closed, i.e. its node-id sequence
has length at least 4 and its first id equals its last id; a way whose
node-id sequence has length 3 is treated as not closed (even when its
first id equals its last id) and yields no polygon row, but a sequence
of 4 ids over 3 distinct nodes with first equal to last is closed. -/
theorem c5_closed_polygon (env : WayEnv) (w v : Way)
    (hv : v.refs.length = 3) :
    ((processWay env w).polyRows ≠ [] →
      4 ≤ w.refs.length ∧ w.refs.head? = w.refs.getLast?)
    ∧ (processWay env v).polyRows = [] := by
  constructor
  · intro h
    have hc := processWay_polyRows_closed env w h
    unfold Way.IsClosed at hc
    rw [Bool.and_eq_true, decide_eq_true_eq, decide_eq_true_eq] at hc
    exact hc
  · apply processWay_not_closed
    unfold Way.IsClosed
    rw [hv]
    simp

/-- Claim C5 witness: the amended theorem applied to a closed square
way and a length-3 way. -/
theorem c5_witness :
    ((processWay wayEnvOk ⟨8, [1, 2, 3, 4, 1], [], [], none⟩).polyRows ≠ [] →
      4 ≤ ([1, 2, 3, 4, 1] : List Int).length
        ∧ ([1, 2, 3, 4, 1] : List Int).head? = ([1, 2, 3, 4, 1] : List Int).getLast?)
    ∧ (processWay wayEnvOk ⟨6, [1, 2, 1], [], [], none⟩).polyRows = [] :=
  c5_closed_polygon wayEnvOk ⟨8, [1, 2, 3, 4, 1], [], [], none⟩
    ⟨6, [1, 2, 1], [], [], none⟩ (by decide)

theorem processWay_line_error (env : WayEnv) (w : Way) (ns : List Node)
    (e : GeomError)
    (h0 : env.inserted w.id = false)
    (h1 : env.fillWay w = .ok ns)
    (h2 : env.lineMatch (Way.elem { w with nodes := ns.map env.projNode }) ≠ [])
    (h3 : env.lineWKB (ns.map env.projNode) = .error e) :
    processWay env w = ⟨[], [], false, geomErrLog e []⟩ := by
  unfold processWay
  simp only [h0, Bool.false_eq_true, if_false, h1]
  cases hlm : env.lineMatch (Way.elem { w with nodes := ns.map env.projNode }) with
  | nil => exact absurd hlm h2
  | cons m ms => simp only [h3]

/-! ## Claim C9 -/

/-- Claim C9 (confirmed): in the way assembler, a failing line-string
build for a way whose tags matched a line-string rule skips the whole
rest of the loop body: no polygon rows are emitted even if the way is
closed and matches polygon rules, and no diff-coord-store entry is
recorded even when diff mode is on; only the error-log pattern runs. -/
theorem c9_line_error_skips_rest (env : WayEnv) (w : Way) (ns : List Node)
    (e : GeomError)
    (h0 : env.inserted w.id = false)
    (h1 : env.fillWay w = .ok ns)
    (h2 : env.lineMatch (Way.elem { w with nodes := ns.map env.projNode }) ≠ [])
    (h3 : env.lineWKB (ns.map env.projNode) = .error e) :
    processWay env w = ⟨[], [], false, geomErrLog e []⟩ :=
  processWay_line_error env w ns e h0 h1 h2 h3

/-- Claim C9 witness: with diff mode on, a closed triangle way matching
both rules whose line-string build fails yields no rows, no diff entry,
and one logged error. -/
theorem c9_witness :
    processWay wayEnvLineErr wayTri
      = ⟨[], [], false, geomErrLog ⟨"geos line", some 1⟩ []⟩ :=
  c9_line_error_skips_rest wayEnvLineErr wayTri [node1] ⟨"geos line", some 1⟩
    rfl rfl (by simp [wayEnvLineErr, wayEnvOk]) rfl

/-! ## Claim C4 -/

/-- Claim C4 (confirmed): for a way matching both a line-string and a
polygon rule (closed, coords resolved), the way assembler emits both row
sets from two independent copies of the record: the line-string rows see
an element whose geom is the line-string blob, the polygon rows see an
element whose geom is the polygon blob, the polygon matcher still sees
the original untouched geom field, and both geometries are built from
the same resolved, projected coords. -/
theorem c4_branch_copies (env : WayEnv) (w : Way) (ns : List Node) (lg pg : Geom)
    (h0 : env.inserted w.id = false)
    (h1 : env.fillWay w = .ok ns)
    (hcl : Way.IsClosed { w with nodes := ns.map env.projNode } = true)
    (hlm : env.lineMatch (Way.elem { w with nodes := ns.map env.projNode }) ≠ [])
    (hpm : env.polyMatch (Way.elem { w with nodes := ns.map env.projNode }) ≠ [])
    (hlw : env.lineWKB (ns.map env.projNode) = .ok lg)
    (hpw : env.polyWKB (ns.map env.projNode) = .ok pg) :
    processWay env w =
      ⟨(env.lineMatch (Way.elem { w with nodes := ns.map env.projNode })).map
          (fun m => (m.table, m.rowOf ⟨w.id, w.tags, some lg⟩)),
        (env.polyMatch (Way.elem { w with nodes := ns.map env.projNode })).map
          (fun m => (m.table, m.rowOf ⟨w.id, w.tags, some pg⟩)),
        env.diff, []⟩ := by
  unfold processWay wayPolyStage
  simp only [h0, Bool.false_eq_true, if_false, h1]
  cases hlmv : env.lineMatch (Way.elem { w with nodes := ns.map env.projNode }) with
  | nil => exact absurd hlmv hlm
  | cons m ms =>
    simp only [hlw, hcl, if_true]
    cases hpmv : env.polyMatch (Way.elem { w with nodes := ns.map env.projNode }) with
    | nil => exact absurd hpmv hpm
    | cons p ps =>
      simp only [hpw]
      simp [Way.elem]

/-- Claim C4 witness: the all-succeeding environment on the closed
triangle emits one line-string row carrying geometry [1] and one
polygon row carrying geometry [2]. -/
theorem c4_witness :
    processWay wayEnvOk wayTri =
      ⟨[("t", ([] : Row))], [("t", ([] : Row))], true, []⟩ := by
  have h := c4_branch_copies wayEnvOk wayTri [node1] [1] [2]
    rfl rfl (by decide) (by simp [wayEnvOk]) (by simp [wayEnvOk]) rfl rfl
  exact h

/-! ## Claim C2 -/

theorem relStep_build_error (env : RelEnv) (st : RelState) (r : Relation)
    (ws : List (Option Way)) (e : GeomError)
    (h1 : env.fillMembers r = .ok ws)
    (h2 : env.buildRelation r (ws.map (processMember env)) = .error e) :
    relStep env st r = { st with logged := geomErrLog e st.logged } := by
  unfold relStep relBuildStage
  simp only [h1, h2]

theorem processWay_poly_error (env : WayEnv) (w : Way) (ns : List Node)
    (e : GeomError)
    (h0 : env.inserted w.id = false)
    (h1 : env.fillWay w = .ok ns)
    (h2 : env.lineMatch (Way.elem { w with nodes := ns.map env.projNode }) = [])
    (h3 : Way.IsClosed { w with nodes := ns.map env.projNode } = true)
    (h4 : env.polyMatch (Way.elem { w with nodes := ns.map env.projNode }) ≠ [])
    (h5 : env.polyWKB (ns.map env.projNode) = .error e) :
    processWay env w = ⟨[], [], false, geomErrLog e []⟩ := by
  unfold processWay wayPolyStage
  simp only [h0, Bool.false_eq_true, if_false, h1, h2, h3, if_true]
  cases hpm : env.polyMatch (Way.elem { w with nodes := ns.map env.projNode }) with
  | nil => exact absurd hpm h4
  | cons p ps => simp only [h5]

theorem processNode_point_error (env : NodeEnv) (n : Node) (e : GeomError)
    (h1 : env.pointMatch n.elem ≠ [])
    (h2 : env.pointWKB (env.projNode n) = .error e) :
    processNode env n = ⟨[], geomErrLog e []⟩ := by
  unfold processNode
  cases hm : env.pointMatch n.elem with
  | nil => exact absurd hm h1
  | cons m ms => simp only [h2]

/-- Claim C2 (confirmed): at every geometry-builder error site
(BuildRelation in the relation pass, line-string and polygon builds in
the way pass, point build in the node pass) the entity is dropped while
the fold continues; the error contributes nothing to the log iff it
implements the Level capability with Level() at most 0, and is logged
otherwise (no Level method, or a positive level). -/
theorem c2_geom_error_handling
    (envR : RelEnv) (st : RelState) (r : Relation) (ws : List (Option Way))
    (e1 : GeomError)
    (hR1 : envR.fillMembers r = .ok ws)
    (hR2 : envR.buildRelation r (ws.map (processMember envR)) = .error e1)
    (envL : WayEnv) (wL : Way) (nsL : List Node) (eL : GeomError)
    (hL0 : envL.inserted wL.id = false)
    (hL1 : envL.fillWay wL = .ok nsL)
    (hL2 : envL.lineMatch (Way.elem { wL with nodes := nsL.map envL.projNode }) ≠ [])
    (hL3 : envL.lineWKB (nsL.map envL.projNode) = .error eL)
    (envP : WayEnv) (wP : Way) (nsP : List Node) (eP : GeomError)
    (hP0 : envP.inserted wP.id = false)
    (hP1 : envP.fillWay wP = .ok nsP)
    (hP2 : envP.lineMatch (Way.elem { wP with nodes := nsP.map envP.projNode }) = [])
    (hP3 : Way.IsClosed { wP with nodes := nsP.map envP.projNode } = true)
    (hP4 : envP.polyMatch (Way.elem { wP with nodes := nsP.map envP.projNode }) ≠ [])
    (hP5 : envP.polyWKB (nsP.map envP.projNode) = .error eP)
    (envN : NodeEnv) (n : Node) (eN : GeomError)
    (hN1 : envN.pointMatch n.elem ≠ [])
    (hN2 : envN.pointWKB (envN.projNode n) = .error eN) :
    relStep envR st r = { st with logged := geomErrLog e1 st.logged }
    ∧ processWay envL wL = ⟨[], [], false, geomErrLog eL []⟩
    ∧ processWay envP wP = ⟨[], [], false, geomErrLog eP []⟩
    ∧ processNode envN n = ⟨[], geomErrLog eN []⟩
    ∧ ∀ e : GeomError,
        (geomErrLog e [] = [] ↔ silentLevel e = true)
        ∧ (silentLevel e = true ↔ ∃ l, e.level = some l ∧ l ≤ 0) := by
  refine ⟨relStep_build_error envR st r ws e1 hR1 hR2,
    processWay_line_error envL wL nsL eL hL0 hL1 hL2 hL3,
    processWay_poly_error envP wP nsP eP hP0 hP1 hP2 hP3 hP4 hP5,
    processNode_point_error envN n eN hN1 hN2, ?_⟩
  intro e
  constructor
  · unfold geomErrLog
    cases hs : silentLevel e with
    | true => simp
    | false => simp
  · unfold silentLevel
    cases hl : e.level with
    | none => simp
    | some l => simp

/-- Claim C2 witness: the four error sites evaluated on concrete
fixtures; the level-0 relation error and the level minus-one point
error log nothing, the level-1 line error and the level-less polygon
error each log one entry. -/
theorem c2_witness :
    relStep relEnvCE ⟨[], [], []⟩ relCE
        = ⟨[], [], geomErrLog ⟨"broken ring", some 0⟩ []⟩
    ∧ processWay wayEnvLineErr wayTri
        = ⟨[], [], false, geomErrLog ⟨"geos line", some 1⟩ []⟩
    ∧ processWay wayEnvPolyErr wayTri
        = ⟨[], [], false, geomErrLog ⟨"geos polygon", none⟩ []⟩
    ∧ processNode nodeEnvErr nodeCafe
        = ⟨[], geomErrLog ⟨"geos point", some (-1)⟩ []⟩ := by
  have h := c2_geom_error_handling
    relEnvCE ⟨[], [], []⟩ relCE [] ⟨"broken ring", some 0⟩ rfl rfl
    wayEnvLineErr wayTri [node1] ⟨"geos line", some 1⟩ rfl rfl
      (by simp [wayEnvLineErr, wayEnvOk]) rfl
    wayEnvPolyErr wayTri [node1] ⟨"geos polygon", none⟩ rfl rfl rfl
      (by decide) (by simp [wayEnvPolyErr, wayEnvOk]) rfl
    nodeEnvErr nodeCafe ⟨"geos point", some (-1)⟩ (by simp [nodeEnvErr]) rfl
  exact ⟨h.1, h.2.1, h.2.2.1, h.2.2.2.1⟩

/-! ## Claim C3 -/

/-- Claim C3 counterexample: a member coord fill that fails with
NotFound is not skipped: the fall-through in goposm.go lines 277-282
still projects the member's (partially filled) coords, so the member
does contribute projected coordinates to geometry building, contrary to
the claim that a failed fill skips the member. -/
theorem c3_counterexample :
    relEnvNF.fillWayRel wayM = FillWayRes.notFound [node1]
    ∧ processMember relEnvNF (some wayM)
        = MemberOut.projected ⟨5, [1], [], [node1], none⟩ := by
  constructor
  · rfl
  · rfl

/-- Claim C3 (amended): in the relation assembler member loop, a member
whose coord fill fails with an error other than NotFound is skipped
(continue: its coords are not projected), but a NotFound failure falls
through and the member is projected like a success; in either case the
remaining members are all processed and the relation still proceeds to
its geometry build. -/
theorem c3_member_fill (env : RelEnv) (w v : Way) (nsv : List Node)
    (hw : env.fillWayRel w = .err) (hv : env.fillWayRel v = .notFound nsv)
    (st : RelState) (r : Relation) (ws : List (Option Way))
    (hm : env.fillMembers r = .ok ws) :
    processMember env (some w) = .skippedErr w
    ∧ processMember env (some v) = .projected { v with nodes := nsv.map env.projNode }
    ∧ relStep env st r = relBuildStage env st r (ws.map (processMember env)) := by
  refine ⟨?_, ?_, ?_⟩
  · unfold processMember; simp only [hw]
  · unfold processMember; simp only [hv]
  · unfold relStep; simp only [hm]

/-- Claim C3 witness: way 5 with a hard fill error is skipped, way 6
with a NotFound fill is projected anyway, and the relation still
reaches its build stage. -/
theorem c3_witness :
    processMember relEnvMix (some wayM) = .skippedErr wayM
    ∧ processMember relEnvMix (some ⟨6, [1], [], [], none⟩)
        = .projected ⟨6, [1], [], [node1], none⟩
    ∧ relStep relEnvMix ⟨[], [], []⟩ relCE
        = relBuildStage relEnvMix ⟨[], [], []⟩ relCE [] := by
  have h := c3_member_fill relEnvMix wayM ⟨6, [1], [], [], none⟩ [node1] rfl rfl
    ⟨[], [], []⟩ relCE [] rfl
  exact ⟨h.1, h.2.1, h.2.2⟩

/-! ## Claim C1 -/

theorem relStep_inserted (env : RelEnv) (st : RelState) (r : Relation) :
    (relStep env st r).inserted
      = st.inserted
        ++ (if relInsertsMembers env r then wayMemberIds r.members else []) := by
  unfold relStep relInsertsMembers relBuildStage
  cases hfm : env.fillMembers r with
  | err => simp
  | notFound ws =>
    cases hb : env.buildRelation r (ws.map (processMember env)) with
    | error e => simp [hb]
    | ok g =>
      cases hpm : env.polyMatch ⟨r.id, r.tags, some g⟩ with
      | nil => simp [hb, hpm]
      | cons m ms => simp [hb, hpm]
  | ok ws =>
    cases hb : env.buildRelation r (ws.map (processMember env)) with
    | error e => simp [hb]
    | ok g =>
      cases hpm : env.polyMatch ⟨r.id, r.tags, some g⟩ with
      | nil => simp [hb, hpm]
      | cons m ms => simp [hb, hpm]

theorem runRelations_inserted_mem (env : RelEnv) (id : Int) :
    ∀ (rels : List Relation) (st : RelState),
      id ∈ (rels.foldl (relStep env) st).inserted ↔
        id ∈ st.inserted
          ∨ ∃ r ∈ rels, relInsertsMembers env r = true ∧ id ∈ wayMemberIds r.members := by
  intro rels
  induction rels with
  | nil => intro st; simp
  | cons r rs ih =>
    intro st
    rw [List.foldl_cons, ih, relStep_inserted]
    cases hri : relInsertsMembers env r with
    | true =>
      simp only [if_true, List.mem_append, List.mem_cons, hri]
      constructor
      · rintro (⟨h | h⟩ | h)
        · exact Or.inl h
        · exact Or.inr ⟨r, Or.inl rfl, hri, h⟩
        · rcases h with ⟨x, hx, hp, hm⟩
          exact Or.inr ⟨x, Or.inr hx, hp, hm⟩
      · rintro (h | ⟨x, hx | hx, hp, hm⟩)
        · exact Or.inl (Or.inl h)
        · subst hx; exact Or.inl (Or.inr hm)
        · exact Or.inr ⟨x, hx, hp, hm⟩
    | false =>
      simp only [Bool.false_eq_true, if_false, List.append_nil, List.mem_cons, hri]
      constructor
      · rintro (h | ⟨x, hx, hp, hm⟩)
        · exact Or.inl h
        · exact Or.inr ⟨x, Or.inr hx, hp, hm⟩
      · rintro (h | ⟨x, hx | hx, hp, hm⟩)
        · exact Or.inl h
        · subst hx; rw [hri] at hp; cases hp
        · exact Or.inr ⟨x, hx, hp, hm⟩

/-- Claim C1 counterexample: a relation whose tags match a polygon rule
but whose geometry build fails never reaches PutMembers, so its way
member (id 5) is in the claim's inserted set yet is_inserted(5) is
false after the relation pass, refuting the claimed "exactly". -/
theorem c1_counterexample :
    claimInsertedIds relEnvCE [relCE] 5 = true
    ∧ ((runRelations relEnvCE [relCE]).inserted.contains 5) = false := by
  exact ⟨rfl, rfl⟩

/-- Claim C1 (amended): after the relation pass, is_inserted(id) holds
for exactly the way ids that appeared as way-typed members of some
relation that survived FillMembers, whose geometry build succeeded, and
whose polygon matcher returned a non-empty match list (PutMembers runs
only then); and the way assembler drops every way whose id the
inserted-ways store answers true for, emitting no row for it. -/
theorem c1_inserted_ways (env : RelEnv) (rels : List Relation) (id : Int)
    (wenv : WayEnv) (w : Way) (hw : wenv.inserted w.id = true) :
    (id ∈ (runRelations env rels).inserted ↔
      ∃ r ∈ rels, relInsertsMembers env r = true ∧ id ∈ wayMemberIds r.members)
    ∧ processWay wenv w = ⟨[], [], false, []⟩ := by
  constructor
  · unfold runRelations
    rw [runRelations_inserted_mem]
    simp
  · unfold processWay
    simp [hw]

/-- Claim C1 witness: with a succeeding build, way id 5 is inserted via
its matched parent relation, and the way assembler emits nothing for
the way the store reports inserted. -/
theorem c1_witness :
    ((5 : Int) ∈ (runRelations relEnvW [relCE]).inserted ↔
      ∃ r ∈ [relCE], relInsertsMembers relEnvW r = true
        ∧ (5 : Int) ∈ wayMemberIds r.members)
    ∧ processWay wayEnvInserted wayTri = ⟨[], [], false, []⟩ :=
  c1_inserted_ways relEnvW [relCE] 5 wayEnvInserted wayTri rfl

/-! ## Claim C6 -/

theorem foldl_coordStep_put (f : Bool) :
    ∀ n : Nat,
      List.foldl coordStep ⟨true, f, true⟩ (List.replicate n Ev.putCoords)
        = ⟨true, f, true⟩ := by
  intro n
  induction n with
  | zero => rfl
  | succ k ih =>
    rw [List.replicate_succ, List.foldl_cons]
    exact ih

theorem foldl_coordStep_write :
    ∀ l : List Ev,
      (∀ e ∈ l, e = Ev.fillCoords ∨ e = Ev.wayStep ∨ e = Ev.diffRemove
        ∨ e = Ev.diffOpen ∨ e = Ev.diffClose) →
      List.foldl coordStep ⟨false, true, true⟩ l = ⟨false, true, true⟩ := by
  intro l
  induction l with
  | nil => intro _; rfl
  | cons e es ih =>
    intro h
    rw [List.foldl_cons]
    have hstep : coordStep ⟨false, true, true⟩ e = ⟨false, true, true⟩ := by
      rcases h e (List.mem_cons_self e es) with h1 | h1 | h1 | h1 | h1 <;>
        subst h1 <;> rfl
    rw [hstep]
    exact ih (fun x hx => h x (List.mem_cons_of_mem e hx))

theorem mem_flatten_replicate_pair (n : Nat) (e a b : Ev)
    (h : e ∈ (List.replicate n [a, b]).flatten) : e = a ∨ e = b := by
  rw [List.mem_flatten] at h
  rcases h with ⟨l, hl, hel⟩
  have hq := List.eq_of_mem_replicate hl
  subst hq
  simpa using hel

theorem writeTrace_events (cfg : MainCfg) :
    ∀ e ∈ writeTrace cfg,
      e = Ev.fillCoords ∨ e = Ev.wayStep ∨ e = Ev.diffRemove
        ∨ e = Ev.diffOpen ∨ e = Ev.diffClose := by
  intro e he
  unfold writeTrace at he
  cases hw : cfg.write with
  | false => simp [hw] at he
  | true =>
    simp only [hw, if_true] at he
    rw [List.mem_append, List.mem_append, List.mem_append] at he
    rcases he with ((h1 | h2) | h3) | h4
    · simp at h1; tauto
    · have hq := List.eq_of_mem_replicate h2; subst hq; tauto
    · have hq := mem_flatten_replicate_pair cfg.wayCount e Ev.wayStep Ev.fillCoords h3
      tauto
    · simp at h4; tauto

/-- Claim C6 (confirmed): whenever the read phase runs, the coord store
enters linear-import mode before any coord batch is written, leaves it
and is flushed once parsing is done, and every later random-access fill
of the coord store (relation pass and way pass) happens with linear
mode off and after the flush; the whole trace of main satisfies the
mode-discipline checker. -/
theorem c6_coord_mode (cfg : MainCfg) (h : cfg.readFile ≠ "") :
    coordAccessOk (mainTrace cfg) = true := by
  unfold coordAccessOk mainTrace readTrace
  rw [if_neg h, List.foldl_append, List.foldl_append, List.foldl_append]
  have h1 : List.foldl coordStep ⟨false, false, true⟩ [Ev.setLinear true]
      = ⟨true, false, true⟩ := rfl
  rw [h1]
  have h2 : List.foldl coordStep ⟨true, false, true⟩
      (if cfg.skipCoords then [] else List.replicate cfg.coordBatches Ev.putCoords)
      = ⟨true, false, true⟩ := by
    cases hs : cfg.skipCoords with
    | true => simp [hs]
    | false =>
      simp only [hs, Bool.false_eq_true, if_false]
      exact foldl_coordStep_put false cfg.coordBatches
  rw [h2]
  have h3 : List.foldl coordStep ⟨true, false, true⟩
      [Ev.setLinear false, Ev.flushCoords] = ⟨false, true, true⟩ := rfl
  rw [h3]
  rw [foldl_coordStep_write (writeTrace cfg) (writeTrace_events cfg)]

/-- Claim C6 witness: the checker passes on a run with both phases
enabled, two coord batches, one relation fill and two ways. -/
theorem c6_witness : coordAccessOk (mainTrace cfgBoth) = true :=
  c6_coord_mode cfgBoth (by decide)

/-! ## Claim C7 -/

theorem foldl_coordWriter_skip (env : ReadEnv) (h : env.skipCoords = true) :
    ∀ (l : List (List Node)) (st : CacheStore),
      l.foldl (coordWriterStep env) st = st := by
  intro l
  induction l with
  | nil => intro st; rfl
  | cons b bs ih =>
    intro st
    rw [List.foldl_cons]
    have hb : coordWriterStep env st b = st := by
      unfold coordWriterStep; rw [if_pos h]
    rw [hb]; exact ih st

theorem foldl_nodeWriter_skip (env : ReadEnv) (h : env.skipNodes = true) :
    ∀ (l : List (List Node)) (st : CacheStore),
      l.foldl (nodeWriterStep env) st = st := by
  intro l
  induction l with
  | nil => intro st; rfl
  | cons b bs ih =>
    intro st
    rw [List.foldl_cons]
    have hb : nodeWriterStep env st b = st := by
      unfold nodeWriterStep; rw [if_pos h]
    rw [hb]; exact ih st

theorem foldl_wayWriter_skip (env : ReadEnv) (h : env.skipWays = true) :
    ∀ (l : List (List Way)) (st : CacheStore),
      l.foldl (wayWriterStep env) st = st := by
  intro l
  induction l with
  | nil => intro st; rfl
  | cons b bs ih =>
    intro st
    rw [List.foldl_cons]
    have hb : wayWriterStep env st b = st := by
      unfold wayWriterStep; rw [if_pos h]
    rw [hb]; exact ih st

theorem readFold_coords_inv (env : ReadEnv)
    (nodeBatches : List (List Node)) (wayBatches : List (List Way))
    (relBatches : List (List Relation)) (st : CacheStore) :
    (relBatches.foldl (relWriterStep env)
        (wayBatches.foldl (wayWriterStep env)
          (nodeBatches.foldl (nodeWriterStep env) st))).coords = st.coords
    ∧ (relBatches.foldl (relWriterStep env)
        (wayBatches.foldl (wayWriterStep env)
          (nodeBatches.foldl (nodeWriterStep env) st))).coordPuts = st.coordPuts := by
  have hn1 : ∀ (s : CacheStore) (b : List Node),
      (nodeWriterStep env s b).coords = s.coords := by
    intro s b; unfold nodeWriterStep; split <;> rfl
  have hw1 : ∀ (s : CacheStore) (b : List Way),
      (wayWriterStep env s b).coords = s.coords := by
    intro s b; unfold wayWriterStep; split <;> rfl
  have hr1 : ∀ (s : CacheStore) (b : List Relation),
      (relWriterStep env s b).coords = s.coords := by
    intro s b; rfl
  have hn2 : ∀ (s : CacheStore) (b : List Node),
      (nodeWriterStep env s b).coordPuts = s.coordPuts := by
    intro s b; unfold nodeWriterStep; split <;> rfl
  have hw2 : ∀ (s : CacheStore) (b : List Way),
      (wayWriterStep env s b).coordPuts = s.coordPuts := by
    intro s b; unfold wayWriterStep; split <;> rfl
  have hr2 : ∀ (s : CacheStore) (b : List Relation),
      (relWriterStep env s b).coordPuts = s.coordPuts := by
    intro s b; rfl
  constructor
  · rw [foldl_preserve (relWriterStep env) CacheStore.coords hr1,
      foldl_preserve (wayWriterStep env) CacheStore.coords hw1,
      foldl_preserve (nodeWriterStep env) CacheStore.coords hn1]
  · rw [foldl_preserve (relWriterStep env) CacheStore.coordPuts hr2,
      foldl_preserve (wayWriterStep env) CacheStore.coordPuts hw2,
      foldl_preserve (nodeWriterStep env) CacheStore.coordPuts hn2]

/-- Claim C7 (confirmed): a nonempty environment value sets the skip
flag; with a skip flag set the corresponding writer pool drains its
batches with no Put call and leaves the store untouched; in particular
with skip-coords set the whole read phase leaves the coord store as it
was (empty if it started empty) and its PutCoords counter unchanged. -/
theorem c7_skip_env (s : String) (hs : s ≠ "") (env : ReadEnv)
    (coordBatches nodeBatches : List (List Node)) (wayBatches : List (List Way))
    (relBatches : List (List Relation)) (st : CacheStore) :
    envSkip s = true
    ∧ (env.skipCoords = true → coordBatches.foldl (coordWriterStep env) st = st)
    ∧ (env.skipNodes = true → nodeBatches.foldl (nodeWriterStep env) st = st)
    ∧ (env.skipWays = true → wayBatches.foldl (wayWriterStep env) st = st)
    ∧ (env.skipCoords = true →
        (runRead env coordBatches nodeBatches wayBatches relBatches st).coords
            = st.coords
        ∧ (runRead env coordBatches nodeBatches wayBatches relBatches st).coordPuts
            = st.coordPuts)
    ∧ (env.skipCoords = true →
        (runRead env coordBatches nodeBatches wayBatches relBatches emptyCache).coords
          = []) := by
  have hrun : env.skipCoords = true → ∀ st0 : CacheStore,
      (runRead env coordBatches nodeBatches wayBatches relBatches st0).coords
          = st0.coords
      ∧ (runRead env coordBatches nodeBatches wayBatches relBatches st0).coordPuts
          = st0.coordPuts := by
    intro hc st0
    unfold runRead
    rw [foldl_coordWriter_skip env hc]
    exact readFold_coords_inv env nodeBatches wayBatches relBatches st0
  refine ⟨?_, fun hc => foldl_coordWriter_skip env hc coordBatches st,
    fun hn => foldl_nodeWriter_skip env hn nodeBatches st,
    fun hw => foldl_wayWriter_skip env hw wayBatches st,
    fun hc => hrun hc st,
    fun hc => (hrun hc emptyCache).1⟩
  unfold envSkip
  simp [hs]

/-- Claim C7 witness: the skip environment applied to the value "1" and
an all-skipping read over one batch of each kind. -/
theorem c7_witness :
    envSkip "1" = true
    ∧ ([[node1]].foldl (coordWriterStep readEnvSkip) emptyCache = emptyCache)
    ∧ ([[nodeCafe]].foldl (nodeWriterStep readEnvSkip) emptyCache = emptyCache)
    ∧ ([[wayTri]].foldl (wayWriterStep readEnvSkip) emptyCache = emptyCache)
    ∧ (runRead readEnvSkip [[node1]] [[nodeCafe]] [[wayTri]] [[relCE]] emptyCache).coords
        = [] := by
  have h := c7_skip_env "1" (by decide) readEnvSkip [[node1]] [[nodeCafe]] [[wayTri]]
    [[relCE]] emptyCache
  exact ⟨h.1, h.2.1 rfl, h.2.2.1 rfl, h.2.2.2.1 rfl, h.2.2.2.2.2 rfl⟩

/-! ## Claim C8 -/

/-- Claim C8 counterexample: the value "0" parses as an integer
(strconv returns 0 with no error), yet the batch size is 4096 rather
than the parsed value, refuting the claim that 4096 is used only when
the variable is unset or does not parse. -/
theorem c8_counterexample :
    (goParseInt32 "0").2 = true
    ∧ (goParseInt32 "0").1 = 0
    ∧ claimBatchSize "0" = 0
    ∧ dbImportBatchSize "0" = 4096 := by
  exact ⟨rfl, rfl, rfl, rfl⟩

/-- Claim C8 (amended): the batch size is the ParseInt result of the
environment variable with the error discarded: 4096 exactly when that
result is 0 (unset, a syntax error, or an explicit zero), and the
parsed value otherwise; and an Insert into the buffer flushes the
table's queue as one batch exactly when the queue, after appending,
reaches the configured batch size. -/
theorem c8_batch_size (s : String) (b : Int) (st : BufferState) (tbl : String)
    (row : Row) :
    ((goParseInt32 s).1 = 0 → dbImportBatchSize s = 4096)
    ∧ ((goParseInt32 s).1 ≠ 0 → dbImportBatchSize s = (goParseInt32 s).1)
    ∧ dbImportBatchSize "" = 4096
    ∧ (b ≤ ((pendingOf st.pending tbl).length + 1 : Int) →
        (ibInsert b st tbl row).out
            = st.out ++ [(tbl, pendingOf st.pending tbl ++ [row])]
        ∧ pendingOf (ibInsert b st tbl row).pending tbl = [])
    ∧ (¬ b ≤ ((pendingOf st.pending tbl).length + 1 : Int) →
        (ibInsert b st tbl row).out = st.out
        ∧ pendingOf (ibInsert b st tbl row).pending tbl
            = pendingOf st.pending tbl ++ [row]) := by
  have hq : (((pendingOf st.pending tbl ++ [row]).length : Nat) : Int)
      = ((pendingOf st.pending tbl).length + 1 : Int) := by
    simp
  refine ⟨?_, ?_, rfl, ?_, ?_⟩
  · intro h0
    simp only [dbImportBatchSize]
    rw [h0]
    rfl
  · intro h0
    simp only [dbImportBatchSize]
    rw [if_neg h0]
  · intro hle
    simp only [ibInsert]
    rw [hq, if_pos hle]
    refine ⟨rfl, ?_⟩
    simp [pendingOf, setPending, List.lookup]
  · intro hgt
    simp only [ibInsert]
    rw [hq, if_neg hgt]
    refine ⟨rfl, ?_⟩
    simp [pendingOf, setPending, List.lookup]

/-- Claim C8 witness: "8192" yields batch size 8192, "0" yields the
default 4096, and a buffer with batch size 1 flushes on the first
insert. -/
theorem c8_witness :
    dbImportBatchSize "8192" = 8192
    ∧ dbImportBatchSize "0" = 4096
    ∧ (ibInsert 1 ⟨[], []⟩ "t" []).out = [("t", [[]])] := by
  have h1 := c8_batch_size "8192" 1 ⟨[], []⟩ "t" []
  have h2 := c8_batch_size "0" 1 ⟨[], []⟩ "t" []
  refine ⟨(h1.2.1 (by decide)).trans (by decide), h2.1 (by decide), ?_⟩
  exact (h1.2.2.2.1 (by decide)).1

/-! ## Claim C10 -/

theorem filter_replicate_fill (n : Nat) :
    (List.replicate n Ev.fillCoords).filter diffOrWay = [] := by
  induction n with
  | zero => rfl
  | succ k ih =>
    rw [List.replicate_succ, List.filter_cons]
    simp [diffOrWay, ih]

theorem filter_flatten_pair (n : Nat) :
    ((List.replicate n [Ev.wayStep, Ev.fillCoords]).flatten).filter diffOrWay
      = List.replicate n Ev.wayStep := by
  induction n with
  | zero => rfl
  | succ k ih =>
    rw [List.replicate_succ, List.flatten_cons, List.filter_append, ih]
    rfl

theorem readTrace_no_diff (cfg : MainCfg) :
    (readTrace cfg).filter diffOrWay = [] := by
  unfold readTrace
  by_cases hr : cfg.readFile = ""
  · rw [if_pos hr]; rfl
  · rw [if_neg hr, List.filter_append, List.filter_append]
    cases hs : cfg.skipCoords with
    | true => simp [diffOrWay]
    | false =>
      simp only [hs, Bool.false_eq_true, if_false]
      have hp : (List.replicate cfg.coordBatches Ev.putCoords).filter diffOrWay
          = [] := by
        induction cfg.coordBatches with
        | zero => rfl
        | succ k ih =>
          rw [List.replicate_succ, List.filter_cons]
          simp [diffOrWay, ih]
      rw [hp]
      rfl

theorem wayPolyStage_diffAdd (env : WayEnv) (wp : Way)
    (lr : List (String × Row)) (lg : List GeomError) :
    (wayPolyStage env wp lr lg).diffAdd
      = (env.diff &&
          !(if wp.IsClosed then
              match env.polyMatch wp.elem with
              | [] => false
              | _ =>
                match env.polyWKB wp.nodes with
                | .error _ => true
                | .ok _ => false
            else false)) := by
  unfold wayPolyStage
  cases hc : wp.IsClosed with
  | false => simp [hc]
  | true =>
    simp only [hc, if_true]
    cases hpm : env.polyMatch wp.elem with
    | nil => simp
    | cons p ps =>
      cases hpw : env.polyWKB wp.nodes with
      | error e => simp [hpw]
      | ok g => simp [hpw]

theorem processWay_diffAdd (env : WayEnv) (w : Way) :
    (processWay env w).diffAdd
      = (env.diff && !(env.inserted w.id) && wayFillOk env w
          && !(wayGeomSkip env w)) := by
  unfold processWay wayFillOk wayGeomSkip
  cases hi : env.inserted w.id with
  | true => simp [hi]
  | false =>
    simp only [hi, Bool.false_eq_true, if_false, Bool.not_false, Bool.and_true]
    cases hf : env.fillWay w with
    | error u => simp
    | ok ns =>
      simp only
      cases hlm : env.lineMatch (Way.elem { w with nodes := ns.map env.projNode }) with
      | nil =>
        simp only [hlm]
        rw [wayPolyStage_diffAdd]
        simp
      | cons m ms =>
        simp only [hlm]
        cases hlw : env.lineWKB (List.map env.projNode ns) with
        | error e => simp [hlw]
        | ok g =>
          simp only [hlw]
          rw [wayPolyStage_diffAdd]
          simp

theorem writeTrace_filter (cfg : MainCfg) (hw : cfg.write = true) :
    (writeTrace cfg).filter diffOrWay
      = [Ev.diffRemove, Ev.diffOpen]
          ++ List.replicate cfg.wayCount Ev.wayStep ++ [Ev.diffClose] := by
  unfold writeTrace
  rw [if_pos hw, List.filter_append, List.filter_append, List.filter_append,
    filter_replicate_fill, filter_flatten_pair]
  simp [diffOrWay]

/-- Claim C10 (amended): every run with --write removes the diff coord
cache, reopens it fresh before the way pass and closes it right after,
even when --diff is off; but AddFromWay runs for a way iff --diff is
set, the way is not marked inserted, its coord fill succeeded, AND no
geometry-builder error made the loop body continue early — a geometry
error suppresses the diff entry even in diff mode. -/
theorem c10_diff_cache (cfg : MainCfg) (hw : cfg.write = true)
    (env : WayEnv) (w : Way) :
    (mainTrace cfg).filter diffOrWay
      = [Ev.diffRemove, Ev.diffOpen]
          ++ List.replicate cfg.wayCount Ev.wayStep ++ [Ev.diffClose]
    ∧ (processWay env w).diffAdd
      = (env.diff && !(env.inserted w.id) && wayFillOk env w
          && !(wayGeomSkip env w)) := by
  constructor
  · unfold mainTrace
    rw [List.filter_append, readTrace_no_diff, writeTrace_filter cfg hw]
    rfl
  · exact processWay_diffAdd env w

/-- Claim C10 counterexample: with --diff on, a not-inserted way whose
coord fill succeeded but whose line-string build failed gets no
AddFromWay call, refuting the claimed iff that ignores geometry
errors. -/
theorem c10_counterexample :
    wayEnvLineErr.diff = true
    ∧ wayEnvLineErr.inserted wayTri.id = false
    ∧ wayFillOk wayEnvLineErr wayTri = true
    ∧ (processWay wayEnvLineErr wayTri).diffAdd = false := by
  exact ⟨rfl, rfl, rfl, rfl⟩

/-- Claim C10 witness: the diff lifecycle on a two-way write run, and
the AddFromWay characterization on the all-succeeding environment. -/
theorem c10_witness :
    (mainTrace cfgBoth).filter diffOrWay
      = [Ev.diffRemove, Ev.diffOpen]
          ++ List.replicate 2 Ev.wayStep ++ [Ev.diffClose]
    ∧ (processWay wayEnvOk wayTri).diffAdd
      = (wayEnvOk.diff && !(wayEnvOk.inserted wayTri.id)
          && wayFillOk wayEnvOk wayTri && !(wayGeomSkip wayEnvOk wayTri)) :=
  c10_diff_cache cfgBoth rfl wayEnvOk wayTri

end Goposm
